import Mathlib

/-!
Verification of the mongo-compression-demo benchmark engine (src/main.go).

The Go program is shallowly embedded: pure computations become Lean
functions over `Int`/`Nat`/`ℚ` (float64 arithmetic is modelled by exact
rational arithmetic), and every interaction with the external MongoDB
backend is modelled by explicit data passed in (a `Backend` record of the
outcomes the backend produces for one per-algorithm run, and a `marshal`
function standing for `bson.Marshal`, of which only the byte length of its
output is ever used).  Fallible Go code returning `(value, error)` becomes
`Except String` / `Outcome`; a Go runtime panic (a failed type assertion)
is a distinct `Outcome.panicked` terminal mode, since it does not return
an error value to the caller.
-/

/-- Termination mode of a Go computation: normal return, an error value
returned to the caller, or a runtime panic (which unwinds and never hands
an error value back). -/
inductive Outcome (α : Type) where
  | ok (a : α)
  | err (e : String)
  | panicked (msg : String)
deriving DecidableEq

/-- Whether an `Outcome` is an error value returned to the caller. -/
def Outcome.isErr {α : Type} : Outcome α → Bool
  | .err _ => true
  | _ => false

/-- A BSON value as far as the program inspects one: the stats document's
fields.  The storage-size type assertion in the source succeeds only on
`int64`. -/
inductive BsonValue where
  | int64 (v : Int)
  | int32 (v : Int)
  | double (v : ℚ)
  | str (s : String)
deriving DecidableEq

/-- `CompressionResult` from src/main.go lines 16-23.  `time.Duration` is
int64 nanoseconds, modelled as `Int`; the float64 metric fields are
modelled as `ℚ`. -/
structure CompressionResult where
  algorithm : String
  originalSize : Int
  compressedSize : Int
  reductionPercent : ℚ
  compressionRatio : ℚ
  insertTime : Int
deriving DecidableEq

instance {ε α : Type} [DecidableEq ε] [DecidableEq α] :
    DecidableEq (Except ε α) := fun a b =>
  match a, b with
  | .error e, .error f =>
    if h : e = f then .isTrue (by rw [h]) else .isFalse (by simp [h])
  | .error _, .ok _ => .isFalse (by simp)
  | .ok _, .error _ => .isFalse (by simp)
  | .ok x, .ok y =>
    if h : x = y then .isTrue (by rw [h]) else .isFalse (by simp [h])

/-- What the external MongoDB backend does during one per-algorithm run:
the outcome of `mongo.Connect`, of `InsertOne`, the elapsed time the clock
measures for the insert, and the outcome of decoding the `collStats`
reply into a `bson.M` (modelled as an association list of fields). -/
structure Backend where
  connect : Except String Unit
  insertOne : Except String Unit
  insertDuration : Int
  collStats : Except String (List (String × BsonValue))
deriving DecidableEq

/-- One product item of the synthetic document (src/main.go lines 37-52). -/
structure ProductItem where
  id : Nat
  name : String
  description : String
  price : ℚ
  tags : List String
  categories : List String
  features : List String
  averageRating : ℚ
  totalReviews : Nat
  stars : List Nat
deriving DecidableEq

/-- The metadata map of the synthetic document (src/main.go lines 69-74). -/
structure DocMetadata where
  createdBy : String
  documentType : String
  sizeCategory : String
  compressionTest : Bool
deriving DecidableEq

/-- The synthetic test document (src/main.go lines 61-75).  The fresh
ObjectID and `time.Now()` timestamp are nondeterministic inputs of the
generator and appear as parameters `oid` and `now`. -/
structure TestDocument where
  oid : Nat
  description : String
  timestamp : Int
  version : String
  repetitiveText : String
  productItems : List ProductItem
  binaryData : List Nat
  metadata : DocMetadata
deriving DecidableEq

/-- Go's `strings.Repeat s n`: `s` concatenated `n` times. -/
def goRepeat (s : String) : Nat → String
  | 0 => ""
  | n + 1 => goRepeat s n ++ s

/-- The item built for index `i` (src/main.go lines 37-52). -/
def makeProductItem (i : Nat) : ProductItem :=
  { id := i
    name := "Product_Item_Number_" ++ toString i
    description := "This is a repeated item description that compresses efficiently with MongoDB compression algorithms"
    price := (i : ℚ) * (199 / 100)
    tags := ["electronics", "home", "kitchen", "premium"]
    categories := ["main", "featured", "bestseller"]
    features := ["wireless", "bluetooth", "rechargeable", "smart"]
    averageRating := 45 / 10
    totalReviews := 150
    stars := [100, 200, 300, 250, 150] }

/-- `generateLargeDocument` (src/main.go lines 30-78): the repetitive text
blob (50000 repeats), 5000 product items, a 300000-byte block whose byte
at index `i` is `i % 256`, and the fixed metadata. -/
def generateLargeDocument (oid : Nat) (now : Int) : TestDocument :=
  { oid := oid
    description := "Large 4.7MB document for MongoDB compression testing"
    timestamp := now
    version := "1.0"
    repetitiveText := goRepeat "This is highly compressible repetitive text pattern. " 50000
    productItems := (List.range 5000).map makeProductItem
    binaryData := (List.range 300000).map (fun i => i % 256)
    metadata :=
      { createdBy := "compression-demo"
        documentType := "performance_test"
        sizeCategory := "4.7MB"
        compressionTest := true } }

/-- `getDocumentSize` (src/main.go lines 80-86): `bson.Marshal` then the
byte length as int64.  `marshal` stands for the opaque BSON encoder; only
the length of its output is used, so it is modelled as producing that
length directly. -/
def getDocumentSize (marshal : TestDocument → Except String Nat)
    (doc : TestDocument) : Except String Int :=
  match marshal doc with
  | .error e => .error e
  | .ok n => .ok (n : Int)

/-- `testCompression` (src/main.go lines 88-140): the per-algorithm run
driver.  Measures the original size, connects with the given compressor,
times one insert, decodes `collStats`, and reads `storageSize` through the
unchecked type assertion `statsResult["storageSize"].(int64)` — which, as
in Go, panics when the field is absent or not an `int64`.  The derived
metrics use the unguarded float formulas, modelled in `ℚ`. -/
def testCompression (marshal : TestDocument → Except String Nat)
    (algorithm compressor : String) (doc : TestDocument) (b : Backend) :
    Outcome CompressionResult :=
  match getDocumentSize marshal doc with
  | .error e => .err e
  | .ok originalSize =>
    match b.connect with
    | .error e => .err e
    | .ok _ =>
      match b.insertOne with
      | .error e => .err e
      | .ok _ =>
        match b.collStats with
        | .error e => .err e
        | .ok statsResult =>
          match List.lookup "storageSize" statsResult with
          | some (BsonValue.int64 storageSize) =>
            .ok { algorithm := algorithm
                  originalSize := originalSize
                  compressedSize := storageSize
                  reductionPercent :=
                    (1 - (storageSize : ℚ) / (originalSize : ℚ)) * 100
                  compressionRatio := (originalSize : ℚ) / (storageSize : ℚ)
                  insertTime := b.insertDuration }
          | _ => .panicked "interface conversion"

/-- Whether the decoded stats document would satisfy the storage-size
type assertion: the `storageSize` field is present and an `int64`. -/
def storageLookupIsInt64 (stats : List (String × BsonValue)) : Bool :=
  match List.lookup "storageSize" stats with
  | some (BsonValue.int64 _) => true
  | _ => false

/-- One row of the fixed algorithm table (src/main.go lines 143-150). -/
structure TestSpec where
  name : String
  compressor : String
deriving DecidableEq

/-- The fixed ordered algorithm table (src/main.go lines 147-149). -/
def tests : List TestSpec :=
  [{ name := "Snappy", compressor := "snappy" },
   { name := "Zlib", compressor := "zlib" },
   { name := "Zstd", compressor := "zstd" }]

/-- The loop of `runAllCompressionTests` (src/main.go lines 154-164):
append each successful result in order; on the first driver error return
the wrapped error (`fmt.Errorf("%s test failed: %v", ...)`) with no
partial result list; a driver panic unwinds the whole program. -/
def runLoop (driver : TestSpec → Outcome CompressionResult) :
    List CompressionResult → List TestSpec → Outcome (List CompressionResult)
  | results, [] => .ok results
  | results, t :: ts =>
    match driver t with
    | .ok r => runLoop driver (results ++ [r]) ts
    | .err e => .err (t.name ++ " test failed: " ++ e)
    | .panicked m => .panicked m

/-- `runAllCompressionTests` abstracted over the per-run driver: the
orchestrator iterates the fixed table and calls the driver on each row
with the one shared document. -/
def runAllWithDriver
    (driver : TestSpec → TestDocument → Outcome CompressionResult)
    (doc : TestDocument) : Outcome (List CompressionResult) :=
  runLoop (fun t => driver t doc) [] tests

/-- `runAllCompressionTests` (src/main.go lines 142-167), with the driver
instantiated to `testCompression`; `backends` gives the external backend's
behaviour for each per-algorithm run (each run opens its own connection). -/
def runAllCompressionTests (marshal : TestDocument → Except String Nat)
    (backends : TestSpec → Backend) (doc : TestDocument) :
    Outcome (List CompressionResult) :=
  runAllWithDriver
    (fun t d => testCompression marshal t.name t.compressor d (backends t)) doc

/-- The selection loop of `displayPerformanceAnalysis` (src/main.go lines
263-274): one pass over the results updating the running best-compression
and fastest-insert entries, both initialised to `results[0]` and replaced
only on a strict improvement. -/
def analysisLoop :
    CompressionResult → CompressionResult → List CompressionResult →
      CompressionResult × CompressionResult
  | best, fast, [] => (best, fast)
  | best, fast, r :: rs =>
    analysisLoop
      (if r.reductionPercent > best.reductionPercent then r else best)
      (if r.insertTime < fast.insertTime then r else fast) rs

/-- The best-compression half of the selection loop on its own. -/
def bestLoop : CompressionResult → List CompressionResult → CompressionResult
  | best, [] => best
  | best, r :: rs =>
    bestLoop (if r.reductionPercent > best.reductionPercent then r else best) rs

/-- The fastest-insert half of the selection loop on its own. -/
def fastLoop : CompressionResult → List CompressionResult → CompressionResult
  | fast, [] => fast
  | fast, r :: rs =>
    fastLoop (if r.insertTime < fast.insertTime then r else fast) rs

/-- The reporter's "best compression" selection over a non-empty result
list `hd :: tl` (src/main.go lines 264-277). -/
def bestCompression (hd : CompressionResult) (tl : List CompressionResult) :
    CompressionResult :=
  (analysisLoop hd hd (hd :: tl)).1

/-- The reporter's "fastest insert" selection over a non-empty result list
`hd :: tl` (src/main.go lines 265-279). -/
def fastestInsert (hd : CompressionResult) (tl : List CompressionResult) :
    CompressionResult :=
  (analysisLoop hd hd (hd :: tl)).2

/-- `float64(result.CompressedSize) / 1024 / 1024` (src/main.go line 313). -/
def compressedSizeMB (r : CompressionResult) : ℚ :=
  (r.compressedSize : ℚ) / 1024 / 1024

/-- Per-algorithm projected traffic of the network simulation
(src/main.go line 286): compressed megabytes times the literal 1000
transfer count. -/
def trafficTotalMB (r : CompressionResult) : ℚ :=
  (r.compressedSize : ℚ) / 1024 / 1024 * 1000

/-- Megabytes saved by the network simulation (src/main.go line 287). -/
def trafficSavedMB (originalSizeMB : ℚ) (r : CompressionResult) : ℚ :=
  originalSizeMB * 1000 - trafficTotalMB r

/-- Percentage saved by the network simulation (src/main.go line 288). -/
def trafficSavingsPercent (originalSizeMB : ℚ) (r : CompressionResult) : ℚ :=
  trafficSavedMB originalSizeMB r / (originalSizeMB * 1000) * 100

/-- `const costPerGB = 0.09` (src/main.go line 304), as an exact rational. -/
def costPerGB : ℚ := 9 / 100

/-- `const monthlyTransfers = 1000000` (src/main.go line 305). -/
def monthlyTransfers : Nat := 1000000

/-- Uncompressed monthly gigabytes (src/main.go line 307). -/
def originalCostGB (originalSizeMB : ℚ) : ℚ :=
  originalSizeMB * (monthlyTransfers : ℚ) / 1024

/-- Uncompressed monthly cost (src/main.go line 308). -/
def originalCost (originalSizeMB : ℚ) : ℚ :=
  originalCostGB originalSizeMB * costPerGB

/-- Per-algorithm monthly gigabytes (src/main.go line 314), as a function
of the compressed size in megabytes. -/
def algoCostGB (mb : ℚ) : ℚ :=
  mb * (monthlyTransfers : ℚ) / 1024

/-- Per-algorithm monthly cost (src/main.go line 315). -/
def algoCost (mb : ℚ) : ℚ :=
  algoCostGB mb * costPerGB

/-- Per-algorithm monthly savings (src/main.go line 316). -/
def algoSavings (originalSizeMB mb : ℚ) : ℚ :=
  originalCost originalSizeMB - algoCost mb

/-! ## Inversion of the per-algorithm driver -/

/-- A successful driver run pins down every field of the result: the
sizes come from the marshaller and the stats reply, and the two metrics
are exactly the formulas of src/main.go lines 136-137. -/
theorem testCompression_ok_inv (marshal : TestDocument → Except String Nat)
    (algorithm compressor : String) (doc : TestDocument) (b : Backend)
    (r : CompressionResult)
    (h : testCompression marshal algorithm compressor doc b = .ok r) :
    ∃ (originalSize : Nat) (stats : List (String × BsonValue))
      (storageSize : Int),
      marshal doc = .ok originalSize ∧
      b.collStats = .ok stats ∧
      List.lookup "storageSize" stats = some (BsonValue.int64 storageSize) ∧
      r = { algorithm := algorithm
            originalSize := originalSize
            compressedSize := storageSize
            reductionPercent :=
              (1 - (storageSize : ℚ) / ((originalSize : Int) : ℚ)) * 100
            compressionRatio := ((originalSize : Int) : ℚ) / (storageSize : ℚ)
            insertTime := b.insertDuration } := by
  cases hmd : marshal doc with
  | error e =>
    simp [testCompression, getDocumentSize, hmd] at h
  | ok originalSize =>
    cases hc : b.connect with
    | error e => simp [testCompression, getDocumentSize, hmd, hc] at h
    | ok u =>
      cases hio : b.insertOne with
      | error e => simp [testCompression, getDocumentSize, hmd, hc, hio] at h
      | ok u2 =>
        cases hcs : b.collStats with
        | error e =>
          simp [testCompression, getDocumentSize, hmd, hc, hio, hcs] at h
        | ok stats =>
          cases hl : List.lookup "storageSize" stats with
          | none =>
            simp [testCompression, getDocumentSize, hmd, hc, hio, hcs, hl] at h
          | some v =>
            cases v with
            | int64 storageSize =>
              refine ⟨originalSize, stats, storageSize, rfl, rfl, hl, ?_⟩
              simp [testCompression, getDocumentSize, hmd, hc, hio, hcs, hl] at h
              exact h.symm
            | int32 w =>
              simp [testCompression, getDocumentSize, hmd, hc, hio, hcs, hl] at h
            | double q =>
              simp [testCompression, getDocumentSize, hmd, hc, hio, hcs, hl] at h
            | str t =>
              simp [testCompression, getDocumentSize, hmd, hc, hio, hcs, hl] at h

/-- The algorithm field of a successful run is the name the orchestrator
passed in. -/
theorem testCompression_ok_algorithm
    (marshal : TestDocument → Except String Nat)
    (algorithm compressor : String) (doc : TestDocument) (b : Backend)
    (r : CompressionResult)
    (h : testCompression marshal algorithm compressor doc b = .ok r) :
    r.algorithm = algorithm := by
  obtain ⟨n, stats, s, -, -, -, hr⟩ :=
    testCompression_ok_inv marshal algorithm compressor doc b r h
  rw [hr]

/-! ## Concrete fixtures used by the witnesses and counterexamples -/

/-- A marshaller whose encoding of the document is 1000 bytes long. -/
def marshalW : TestDocument → Except String Nat := fun _ => .ok 1000

/-- The fixed document instance used by the witnesses. -/
def docW : TestDocument := generateLargeDocument 0 0

/-- A backend for which every step succeeds and `collStats` reports a
500-byte `int64` storage size. -/
def backendGood : Backend :=
  { connect := .ok ()
    insertOne := .ok ()
    insertDuration := 7
    collStats := .ok [("storageSize", BsonValue.int64 500)] }

/-- A backend whose connection attempt is rejected. -/
def backendConnFail : Backend :=
  { connect := .error "connection refused"
    insertOne := .ok ()
    insertDuration := 0
    collStats := .ok [] }

/-- A backend whose stats reply carries `storageSize` as an `int32` — a
shape the storage-size type assertion does not accept. -/
def backendWrongShape : Backend :=
  { connect := .ok ()
    insertOne := .ok ()
    insertDuration := 7
    collStats := .ok [("storageSize", BsonValue.int32 500)] }

/-- A backend reporting a zero `int64` storage size. -/
def backendZeroStorage : Backend :=
  { connect := .ok ()
    insertOne := .ok ()
    insertDuration := 7
    collStats := .ok [("storageSize", BsonValue.int64 0)] }

/-- The result of a successful run with original size 1000, storage size
500 and a 7ns insert. -/
def resultW : CompressionResult :=
  { algorithm := "Snappy"
    originalSize := 1000
    compressedSize := 500
    reductionPercent := 50
    compressionRatio := 2
    insertTime := 7 }

/-! ## C1 -/

/-- C1: every `CompressionResult` a successful driver run returns
satisfies `reductionPercent = (1 - compressedSize/originalSize) * 100`
and `compressionRatio = originalSize/compressedSize` (the float64
arithmetic is modelled exactly in `ℚ`); in particular a result with
original size 1000 and compressed size 500 has ratio 2 and reduction
50%. -/
theorem c1_run_result_formulas
    (marshal : TestDocument → Except String Nat)
    (algorithm compressor : String) (doc : TestDocument) (b : Backend)
    (r : CompressionResult)
    (h : testCompression marshal algorithm compressor doc b = .ok r) :
    (r.reductionPercent =
        (1 - (r.compressedSize : ℚ) / (r.originalSize : ℚ)) * 100 ∧
      r.compressionRatio = (r.originalSize : ℚ) / (r.compressedSize : ℚ)) ∧
    (r.originalSize = 1000 → r.compressedSize = 500 →
      r.compressionRatio = 2 ∧ r.reductionPercent = 50) := by
  obtain ⟨n, stats, s, -, -, -, hr⟩ :=
    testCompression_ok_inv marshal algorithm compressor doc b r h
  subst hr
  refine ⟨⟨rfl, rfl⟩, ?_⟩
  intro h1000 h500
  dsimp only at h1000 h500 ⊢
  subst h500
  rw [h1000]
  norm_num

/-- Witness for C1: the formulas hold on the concrete run against
`backendGood` (original size 1000, storage size 500), giving ratio 2 and
reduction 50%. -/
theorem c1_run_result_formulas_witness :
    (resultW.reductionPercent =
        (1 - (resultW.compressedSize : ℚ) / (resultW.originalSize : ℚ)) * 100 ∧
      resultW.compressionRatio =
        (resultW.originalSize : ℚ) / (resultW.compressedSize : ℚ)) ∧
    (resultW.originalSize = 1000 → resultW.compressedSize = 500 →
      resultW.compressionRatio = 2 ∧ resultW.reductionPercent = 50) :=
  c1_run_result_formulas marshalW "Snappy" "snappy" docW backendGood resultW
    (by
      simp only [testCompression, getDocumentSize, marshalW, backendGood,
        List.lookup, resultW, beq_self_eq_true, Outcome.ok.injEq,
        CompressionResult.mk.injEq]
      norm_num)

/-! ## C5 -/

/-- Counterexample for C5: with a backend whose stats reply carries
`storageSize` as an `int32` (an unexpected shape), the driver does not
return an error value to its caller — the unchecked type assertion at
src/main.go line 134 panics instead. -/
theorem c5_counterexample :
    testCompression marshalW "Snappy" "snappy" docW backendWrongShape =
      Outcome.panicked "interface conversion" ∧
    Outcome.isErr
      (testCompression marshalW "Snappy" "snappy" docW backendWrongShape) =
      false := by
  constructor
  · rfl
  · rfl

/-- C5 as amended: when decoding the stats reply itself fails the driver
does return that error to its caller; but when the decoded reply's
`storageSize` field is missing or not an `int64` the driver panics
(failed type assertion) rather than returning an error. -/
theorem c5_amended_stats_failure_modes
    (marshal : TestDocument → Except String Nat)
    (algorithm compressor : String) (doc : TestDocument) (b : Backend)
    (originalSize : Nat)
    (hm : marshal doc = .ok originalSize)
    (hc : b.connect = .ok ())
    (hi : b.insertOne = .ok ()) :
    (∀ e, b.collStats = .error e →
      testCompression marshal algorithm compressor doc b = Outcome.err e) ∧
    (∀ stats, b.collStats = .ok stats → storageLookupIsInt64 stats = false →
      testCompression marshal algorithm compressor doc b =
        Outcome.panicked "interface conversion") := by
  constructor
  · intro e hcs
    simp [testCompression, getDocumentSize, hm, hc, hi, hcs]
  · intro stats hcs hshape
    cases hl : List.lookup "storageSize" stats with
    | none =>
      simp [testCompression, getDocumentSize, hm, hc, hi, hcs, hl]
    | some v =>
      cases v with
      | int64 w =>
        rw [storageLookupIsInt64, hl] at hshape
        cases hshape
      | int32 w =>
        simp [testCompression, getDocumentSize, hm, hc, hi, hcs, hl]
      | double q =>
        simp [testCompression, getDocumentSize, hm, hc, hi, hcs, hl]
      | str t =>
        simp [testCompression, getDocumentSize, hm, hc, hi, hcs, hl]

/-- Witness for C5's amended statement: its hypotheses are discharged on
the concrete `backendWrongShape` run. -/
theorem c5_amended_witness :
    (∀ e, backendWrongShape.collStats = .error e →
      testCompression marshalW "Snappy" "snappy" docW backendWrongShape =
        Outcome.err e) ∧
    (∀ stats, backendWrongShape.collStats = .ok stats →
      storageLookupIsInt64 stats = false →
      testCompression marshalW "Snappy" "snappy" docW backendWrongShape =
        Outcome.panicked "interface conversion") :=
  c5_amended_stats_failure_modes marshalW "Snappy" "snappy" docW
    backendWrongShape 1000 (by decide) (by decide) (by decide)

/-! ## C6 -/

/-- C6: when the backend reports an `int64` storage size of 0 and every
earlier step succeeds, the driver neither fails nor clamps: it returns a
successful result whose metrics are exactly the unguarded formulas with
the zero divisor (reduction `(1 - 0/original) * 100`, which is 100 for a
positive original size, and ratio `original / 0`; in Go's float64 the
latter is `+Inf`, in this `ℚ` model it is `ℚ`'s value for division by
zero). -/
theorem c6_zero_storage_unguarded
    (marshal : TestDocument → Except String Nat)
    (algorithm compressor : String) (doc : TestDocument) (b : Backend)
    (originalSize : Nat) (stats : List (String × BsonValue))
    (hm : marshal doc = .ok originalSize)
    (hc : b.connect = .ok ())
    (hi : b.insertOne = .ok ())
    (hs : b.collStats = .ok stats)
    (hz : List.lookup "storageSize" stats = some (BsonValue.int64 0)) :
    testCompression marshal algorithm compressor doc b =
      Outcome.ok
        { algorithm := algorithm
          originalSize := (originalSize : Int)
          compressedSize := 0
          reductionPercent :=
            (1 - ((0 : Int) : ℚ) / (((originalSize : Nat) : Int) : ℚ)) * 100
          compressionRatio :=
            (((originalSize : Nat) : Int) : ℚ) / ((0 : Int) : ℚ)
          insertTime := b.insertDuration } ∧
    (0 < originalSize →
      (1 - ((0 : Int) : ℚ) / (((originalSize : Nat) : Int) : ℚ)) * 100 =
        100) := by
  constructor
  · simp [testCompression, getDocumentSize, hm, hc, hi, hs, hz]
  · intro hpos
    norm_num

/-- Witness for C6: the concrete `backendZeroStorage` run returns
successfully with reduction 100% and the zero-divisor ratio. -/
theorem c6_zero_storage_unguarded_witness :
    testCompression marshalW "Snappy" "snappy" docW backendZeroStorage =
      Outcome.ok
        { algorithm := "Snappy"
          originalSize := ((1000 : Nat) : Int)
          compressedSize := 0
          reductionPercent :=
            (1 - ((0 : Int) : ℚ) / (((1000 : Nat) : Int) : ℚ)) * 100
          compressionRatio :=
            (((1000 : Nat) : Int) : ℚ) / ((0 : Int) : ℚ)
          insertTime := backendZeroStorage.insertDuration } ∧
    (0 < 1000 →
      (1 - ((0 : Int) : ℚ) / (((1000 : Nat) : Int) : ℚ)) * 100 = 100) :=
  c6_zero_storage_unguarded marshalW "Snappy" "snappy" docW backendZeroStorage
    1000 [("storageSize", BsonValue.int64 0)] (by decide) (by decide)
    (by decide) (by decide) (by decide)

/-! ## C2 -/

/-- The orchestrator loop is fail-fast: when every test before `t`
succeeds and `t`'s driver call returns an error, the loop's value is the
wrapped error naming `t` — whatever the accumulated results so far and
whatever the driver would do on the tests after `t` (which are never
run). -/
theorem runLoop_fail_fast (driver : TestSpec → Outcome CompressionResult)
    (t : TestSpec) (e : String) :
    ∀ (pre post : List TestSpec) (acc : List CompressionResult),
      (∀ t' ∈ pre, ∃ r, driver t' = .ok r) →
      driver t = .err e →
      runLoop driver acc (pre ++ t :: post) =
        .err (t.name ++ " test failed: " ++ e) := by
  intro pre
  induction pre with
  | nil =>
    intro post acc _ hfail
    simp [runLoop, hfail]
  | cons p pre ih =>
    intro post acc hpre hfail
    obtain ⟨r, hr⟩ := hpre p (List.mem_cons_self p pre)
    rw [List.cons_append, runLoop, hr]
    exact ih post (acc ++ [r]) (fun t' ht' => hpre t' (List.mem_cons_of_mem p ht'))
      hfail

/-- C2: if the driver fails (returns an error) for the algorithm at some
position of the fixed table, with every earlier algorithm's run
succeeding, the orchestrator returns only the wrapped error naming that
algorithm — no partial result sequence — and the conclusion is the same
for every backend behaviour on the later algorithms, which are never
reached. -/
theorem c2_fail_fast (marshal : TestDocument → Except String Nat)
    (backends : TestSpec → Backend) (doc : TestDocument)
    (pre post : List TestSpec) (t : TestSpec) (e : String)
    (hsplit : tests = pre ++ t :: post)
    (hpre : ∀ t' ∈ pre, ∃ r,
      testCompression marshal t'.name t'.compressor doc (backends t') = .ok r)
    (hfail : testCompression marshal t.name t.compressor doc (backends t) =
      .err e) :
    runAllCompressionTests marshal backends doc =
      .err (t.name ++ " test failed: " ++ e) := by
  rw [runAllCompressionTests, runAllWithDriver, hsplit]
  exact runLoop_fail_fast _ t e pre post [] hpre hfail

/-- Witness for C2: a connection failure on the first algorithm (Snappy)
aborts the whole benchmark with the wrapped error. -/
theorem c2_fail_fast_witness :
    runAllCompressionTests marshalW (fun _ => backendConnFail) docW =
      .err ("Snappy test failed: connection refused") :=
  c2_fail_fast marshalW (fun _ => backendConnFail) docW []
    [{ name := "Zlib", compressor := "zlib" },
     { name := "Zstd", compressor := "zstd" }]
    { name := "Snappy", compressor := "snappy" } "connection refused"
    rfl (by simp) (by rfl)

/-! ## C4 -/

/-- One successful step of the orchestrator loop appends the result and
continues with the remaining tests. -/
theorem runLoop_cons_ok (driver : TestSpec → Outcome CompressionResult)
    (acc : List CompressionResult) (t : TestSpec) (ts : List TestSpec)
    (r : CompressionResult) (h : driver t = .ok r) :
    runLoop driver acc (t :: ts) = runLoop driver (acc ++ [r]) ts := by
  simp [runLoop, h]

/-- C4: when every per-algorithm run succeeds, the orchestrator returns a
result list of length exactly 3 whose algorithm names are
`["Snappy", "Zlib", "Zstd"]` in the fixed declared order. -/
theorem c4_order_preserved (marshal : TestDocument → Except String Nat)
    (backends : TestSpec → Backend) (doc : TestDocument)
    (hok : ∀ t ∈ tests, ∃ r,
      testCompression marshal t.name t.compressor doc (backends t) = .ok r) :
    ∃ rs, runAllCompressionTests marshal backends doc = .ok rs ∧
      rs.length = 3 ∧
      rs.map (fun r => r.algorithm) = ["Snappy", "Zlib", "Zstd"] := by
  obtain ⟨r1, h1⟩ := hok { name := "Snappy", compressor := "snappy" }
    (by simp [tests])
  obtain ⟨r2, h2⟩ := hok { name := "Zlib", compressor := "zlib" }
    (by simp [tests])
  obtain ⟨r3, h3⟩ := hok { name := "Zstd", compressor := "zstd" }
    (by simp [tests])
  refine ⟨[r1, r2, r3], ?_, rfl, ?_⟩
  · have hd1 : (fun t => testCompression marshal t.name t.compressor doc
        (backends t)) { name := "Snappy", compressor := "snappy" } = .ok r1 := h1
    have hd2 : (fun t => testCompression marshal t.name t.compressor doc
        (backends t)) { name := "Zlib", compressor := "zlib" } = .ok r2 := h2
    have hd3 : (fun t => testCompression marshal t.name t.compressor doc
        (backends t)) { name := "Zstd", compressor := "zstd" } = .ok r3 := h3
    rw [runAllCompressionTests, runAllWithDriver, tests,
      runLoop_cons_ok _ _ _ _ _ hd1, runLoop_cons_ok _ _ _ _ _ hd2,
      runLoop_cons_ok _ _ _ _ _ hd3]
    simp [runLoop]
  · have a1 := testCompression_ok_algorithm marshal "Snappy" "snappy" doc _ r1 h1
    have a2 := testCompression_ok_algorithm marshal "Zlib" "zlib" doc _ r2 h2
    have a3 := testCompression_ok_algorithm marshal "Zstd" "zstd" doc _ r3 h3
    simp [a1, a2, a3]

/-- Witness for C4: with the all-success backend every run succeeds, and
the returned sequence is the three algorithms in declared order. -/
theorem c4_order_preserved_witness :
    ∃ rs, runAllCompressionTests marshalW (fun _ => backendGood) docW =
        .ok rs ∧
      rs.length = 3 ∧
      rs.map (fun r => r.algorithm) = ["Snappy", "Zlib", "Zstd"] :=
  c4_order_preserved marshalW (fun _ => backendGood) docW
    (by
      intro t ht
      refine ⟨{ algorithm := t.name
                originalSize := 1000
                compressedSize := 500
                reductionPercent := (1 - (500 : ℚ) / ((1000 : Int) : ℚ)) * 100
                compressionRatio := ((1000 : Int) : ℚ) / (500 : ℚ)
                insertTime := 7 }, ?_⟩
      simp [testCompression, getDocumentSize, marshalW, backendGood,
        List.lookup])

/-! ## C3 -/

/-- The single pass of `displayPerformanceAnalysis` computes the two
independent selections. -/
theorem analysisLoop_eq (rs : List CompressionResult) :
    ∀ best fast, analysisLoop best fast rs = (bestLoop best rs, fastLoop fast rs) := by
  induction rs with
  | nil => intro best fast; rfl
  | cons r rs ih =>
    intro best fast
    simp only [analysisLoop, bestLoop, fastLoop]
    exact ih _ _

/-- The strict-improvement fold selects the first entry attaining the
maximum reduction: either no entry beats the seed and the seed is kept,
or the result is an entry strictly better than the seed, at least as good
as every entry, and strictly better than every earlier entry. -/
theorem bestLoop_first_argmax (rs : List CompressionResult) :
    ∀ b : CompressionResult,
      (bestLoop b rs = b ∧ ∀ r ∈ rs, r.reductionPercent ≤ b.reductionPercent) ∨
      (∃ i, ∃ hi : i < rs.length,
        bestLoop b rs = rs.get ⟨i, hi⟩ ∧
        b.reductionPercent < (rs.get ⟨i, hi⟩).reductionPercent ∧
        (∀ j, ∀ hj : j < rs.length,
          (rs.get ⟨j, hj⟩).reductionPercent ≤
            (rs.get ⟨i, hi⟩).reductionPercent) ∧
        (∀ j, ∀ hj : j < rs.length, j < i →
          (rs.get ⟨j, hj⟩).reductionPercent <
            (rs.get ⟨i, hi⟩).reductionPercent)) := by
  induction rs with
  | nil =>
    intro b
    left
    exact ⟨rfl, fun r hr => absurd hr (List.not_mem_nil r)⟩
  | cons r rs ih =>
    intro b
    by_cases hc : r.reductionPercent > b.reductionPercent
    · have hstep : bestLoop b (r :: rs) = bestLoop r rs := by
        simp [bestLoop, hc]
      rcases ih r with ⟨heq, hall⟩ | ⟨i, hi, heq, hlt, hall, hstrict⟩
      · right
        refine ⟨0, by simp, by rw [hstep, heq]; rfl, hc, ?_, ?_⟩
        · intro j hj
          cases j with
          | zero => exact le_refl _
          | succ k =>
            have hk : k < rs.length := by simpa using hj
            exact hall _ (rs.get_mem k hk)
        · intro j hj hj0
          exact absurd hj0 (Nat.not_lt_zero j)
      · right
        have hi2 : i + 1 < (r :: rs).length := by simpa using Nat.succ_lt_succ hi
        refine ⟨i + 1, hi2, by rw [hstep, heq]; rfl, lt_trans hc hlt, ?_, ?_⟩
        · intro j hj
          cases j with
          | zero => exact le_of_lt hlt
          | succ k =>
            have hk : k < rs.length := by simpa using hj
            exact hall k hk
        · intro j hj hji
          cases j with
          | zero => exact hlt
          | succ k =>
            have hk : k < rs.length := by simpa using hj
            exact hstrict k hk (by omega)
    · have hstep : bestLoop b (r :: rs) = bestLoop b rs := by
        simp [bestLoop, hc]
      have hrb : r.reductionPercent ≤ b.reductionPercent := not_lt.mp hc
      rcases ih b with ⟨heq, hall⟩ | ⟨i, hi, heq, hlt, hall, hstrict⟩
      · left
        refine ⟨by rw [hstep, heq], ?_⟩
        intro x hx
        rcases List.mem_cons.mp hx with h | h
        · rw [h]; exact hrb
        · exact hall x h
      · right
        have hi2 : i + 1 < (r :: rs).length := by simpa using Nat.succ_lt_succ hi
        refine ⟨i + 1, hi2, by rw [hstep, heq]; rfl, hlt, ?_, ?_⟩
        · intro j hj
          cases j with
          | zero => exact le_trans hrb (le_of_lt hlt)
          | succ k =>
            have hk : k < rs.length := by simpa using hj
            exact hall k hk
        · intro j hj hji
          cases j with
          | zero => exact lt_of_le_of_lt hrb hlt
          | succ k =>
            have hk : k < rs.length := by simpa using hj
            exact hstrict k hk (by omega)

/-- The strict-improvement fold selects the first entry attaining the
minimum insertion time. -/
theorem fastLoop_first_argmin (rs : List CompressionResult) :
    ∀ f : CompressionResult,
      (fastLoop f rs = f ∧ ∀ r ∈ rs, f.insertTime ≤ r.insertTime) ∨
      (∃ i, ∃ hi : i < rs.length,
        fastLoop f rs = rs.get ⟨i, hi⟩ ∧
        (rs.get ⟨i, hi⟩).insertTime < f.insertTime ∧
        (∀ j, ∀ hj : j < rs.length,
          (rs.get ⟨i, hi⟩).insertTime ≤ (rs.get ⟨j, hj⟩).insertTime) ∧
        (∀ j, ∀ hj : j < rs.length, j < i →
          (rs.get ⟨i, hi⟩).insertTime < (rs.get ⟨j, hj⟩).insertTime)) := by
  induction rs with
  | nil =>
    intro f
    left
    exact ⟨rfl, fun r hr => absurd hr (List.not_mem_nil r)⟩
  | cons r rs ih =>
    intro f
    by_cases hc : r.insertTime < f.insertTime
    · have hstep : fastLoop f (r :: rs) = fastLoop r rs := by
        simp [fastLoop, hc]
      rcases ih r with ⟨heq, hall⟩ | ⟨i, hi, heq, hlt, hall, hstrict⟩
      · right
        refine ⟨0, by simp, by rw [hstep, heq]; rfl, hc, ?_, ?_⟩
        · intro j hj
          cases j with
          | zero => exact le_refl _
          | succ k =>
            have hk : k < rs.length := by simpa using hj
            exact hall _ (rs.get_mem k hk)
        · intro j hj hj0
          exact absurd hj0 (Nat.not_lt_zero j)
      · right
        have hi2 : i + 1 < (r :: rs).length := by simpa using Nat.succ_lt_succ hi
        refine ⟨i + 1, hi2, by rw [hstep, heq]; rfl, lt_trans hlt hc, ?_, ?_⟩
        · intro j hj
          cases j with
          | zero => exact le_of_lt hlt
          | succ k =>
            have hk : k < rs.length := by simpa using hj
            exact hall k hk
        · intro j hj hji
          cases j with
          | zero => exact hlt
          | succ k =>
            have hk : k < rs.length := by simpa using hj
            exact hstrict k hk (by omega)
    · have hstep : fastLoop f (r :: rs) = fastLoop f rs := by
        simp [fastLoop, hc]
      have hrb : f.insertTime ≤ r.insertTime := not_lt.mp hc
      rcases ih f with ⟨heq, hall⟩ | ⟨i, hi, heq, hlt, hall, hstrict⟩
      · left
        refine ⟨by rw [hstep, heq], ?_⟩
        intro x hx
        rcases List.mem_cons.mp hx with h | h
        · rw [h]; exact hrb
        · exact hall x h
      · right
        have hi2 : i + 1 < (r :: rs).length := by simpa using Nat.succ_lt_succ hi
        refine ⟨i + 1, hi2, by rw [hstep, heq]; rfl, hlt, ?_, ?_⟩
        · intro j hj
          cases j with
          | zero => exact le_trans (le_of_lt hlt) hrb
          | succ k =>
            have hk : k < rs.length := by simpa using hj
            exact hall k hk
        · intro j hj hji
          cases j with
          | zero => exact lt_of_lt_of_le hlt hrb
          | succ k =>
            have hk : k < rs.length := by simpa using hj
            exact hstrict k hk (by omega)

/-- C3: on any non-empty result sequence `hd :: tl` the reporter's best
compression is the first entry of maximal reduction percentage and the
fastest insert is the first entry of minimal insertion time: each selected
entry is an entry of the sequence that is at least as good as every
entry and strictly better than every earlier entry, so ties keep the
earlier-positioned result. -/
theorem c3_selection_first_extremal (hd : CompressionResult)
    (tl : List CompressionResult) :
    (∃ i, ∃ hi : i < (hd :: tl).length,
      bestCompression hd tl = (hd :: tl).get ⟨i, hi⟩ ∧
      (∀ j, ∀ hj : j < (hd :: tl).length,
        ((hd :: tl).get ⟨j, hj⟩).reductionPercent ≤
          ((hd :: tl).get ⟨i, hi⟩).reductionPercent) ∧
      (∀ j, ∀ hj : j < (hd :: tl).length, j < i →
        ((hd :: tl).get ⟨j, hj⟩).reductionPercent <
          ((hd :: tl).get ⟨i, hi⟩).reductionPercent)) ∧
    (∃ i, ∃ hi : i < (hd :: tl).length,
      fastestInsert hd tl = (hd :: tl).get ⟨i, hi⟩ ∧
      (∀ j, ∀ hj : j < (hd :: tl).length,
        ((hd :: tl).get ⟨i, hi⟩).insertTime ≤
          ((hd :: tl).get ⟨j, hj⟩).insertTime) ∧
      (∀ j, ∀ hj : j < (hd :: tl).length, j < i →
        ((hd :: tl).get ⟨i, hi⟩).insertTime <
          ((hd :: tl).get ⟨j, hj⟩).insertTime)) := by
  have hb : bestCompression hd tl = bestLoop hd (hd :: tl) := by
    rw [bestCompression, analysisLoop_eq]
  have hf : fastestInsert hd tl = fastLoop hd (hd :: tl) := by
    rw [fastestInsert, analysisLoop_eq]
  constructor
  · rcases bestLoop_first_argmax (hd :: tl) hd with
      ⟨heq, hall⟩ | ⟨i, hi, heq, _, hall, hstrict⟩
    · refine ⟨0, by simp, by rw [hb, heq]; rfl, ?_, ?_⟩
      · intro j hj
        exact hall _ ((hd :: tl).get_mem j hj)
      · intro j hj hj0
        exact absurd hj0 (Nat.not_lt_zero j)
    · exact ⟨i, hi, by rw [hb, heq], hall, hstrict⟩
  · rcases fastLoop_first_argmin (hd :: tl) hd with
      ⟨heq, hall⟩ | ⟨i, hi, heq, _, hall, hstrict⟩
    · refine ⟨0, by simp, by rw [hf, heq]; rfl, ?_, ?_⟩
      · intro j hj
        exact hall _ ((hd :: tl).get_mem j hj)
      · intro j hj hj0
        exact absurd hj0 (Nat.not_lt_zero j)
    · exact ⟨i, hi, by rw [hf, heq], hall, hstrict⟩

/-! ## C7 -/

/-- A result whose compressed size is exactly one mebibyte. -/
def resultOneMB : CompressionResult :=
  { algorithm := "Zlib"
    originalSize := 4700000
    compressedSize := 1048576
    reductionPercent := 0
    compressionRatio := 0
    insertTime := 0 }

/-- Counterexample for C7: the two projections do not share a transfer
count.  For a one-mebibyte payload the bandwidth simulation projects
1000 MB — the literal 1000 transfers of src/main.go line 286 — which is
not one transfer-count constant with the cost analysis: that uses
`monthlyTransfers = 1000000` (src/main.go line 305), as the gigabyte
volume it bills shows. -/
theorem c7_counterexample :
    trafficTotalMB resultOneMB ≠
      compressedSizeMB resultOneMB * (monthlyTransfers : ℚ) ∧
    trafficTotalMB resultOneMB = compressedSizeMB resultOneMB * 1000 ∧
    algoCostGB (compressedSizeMB resultOneMB) =
      compressedSizeMB resultOneMB * (monthlyTransfers : ℚ) / 1024 ∧
    (1000 : ℚ) ≠ (monthlyTransfers : ℚ) := by
  refine ⟨?_, ?_, ?_, ?_⟩ <;>
    norm_num [trafficTotalMB, compressedSizeMB, algoCostGB, monthlyTransfers,
      resultOneMB]

/-- C7 as amended: each projection applies its own fixed transfer count
uniformly — the network simulation multiplies every algorithm's
compressed megabytes (and the uncompressed baseline) by 1000, while the
cost analysis bills every algorithm (and the baseline) for 1000000
transfers — but the two constants differ. -/
theorem c7_amended_transfer_counts (originalSizeMB : ℚ)
    (r : CompressionResult) :
    trafficTotalMB r = compressedSizeMB r * 1000 ∧
    trafficSavedMB originalSizeMB r =
      originalSizeMB * 1000 - compressedSizeMB r * 1000 ∧
    algoCost (compressedSizeMB r) =
      compressedSizeMB r * 1000000 / 1024 * (9 / 100) ∧
    originalCost originalSizeMB =
      originalSizeMB * 1000000 / 1024 * (9 / 100) ∧
    (1000 : ℚ) ≠ 1000000 := by
  refine ⟨rfl, ?_, ?_, ?_, by norm_num⟩
  · rw [trafficSavedMB, trafficTotalMB, compressedSizeMB]
  · rw [algoCost, algoCostGB, costPerGB, monthlyTransfers]
    norm_num
  · rw [originalCost, originalCostGB, costPerGB, monthlyTransfers]
    norm_num

/-! ## C8 -/

/-- C8: the cost analysis computes the uncompressed monthly cost as
`original_size_mb * 1000000 / 1024 * 0.09` and each algorithm's cost by
the same formula on its compressed megabytes; on the spec's scenario
(original 4.7 MB, an algorithm at 2.26 MB) the exact values are
413.0859375, 198.6328125, savings 214.453125 and 51.915...%, within a
few cents of the quoted ≈ 413.09, ≈ 198.61, ≈ 214.48 and ≈ 51.9%. -/
theorem c8_cost_formulas_and_scenario :
    (∀ originalSizeMB : ℚ, originalCost originalSizeMB =
      originalSizeMB * 1000000 / 1024 * (9 / 100)) ∧
    (∀ mb : ℚ, algoCost mb = mb * 1000000 / 1024 * (9 / 100)) ∧
    |originalCost (47 / 10) - 41309 / 100| < 1 / 100 ∧
    |algoCost (226 / 100) - 19861 / 100| < 5 / 100 ∧
    |algoSavings (47 / 10) (226 / 100) - 21448 / 100| < 5 / 100 ∧
    |algoSavings (47 / 10) (226 / 100) / originalCost (47 / 10) * 100 -
        519 / 10| < 5 / 100 := by
  refine ⟨?_, ?_, ?_, ?_, ?_, ?_⟩ <;>
    norm_num [abs_lt, originalCost, originalCostGB, algoCost,
      algoCostGB, algoSavings, costPerGB, monthlyTransfers]

/-! ## C9 -/

/-- `strings.Repeat` produces a string of `n` times the pattern's length. -/
theorem goRepeat_length (s : String) :
    ∀ n : Nat, (goRepeat s n).length = n * s.length := by
  intro n
  induction n with
  | zero => simp [goRepeat]
  | succ n ih =>
    rw [goRepeat, String.length_append, ih]
    ring

/-- The orchestrator loop's value depends only on the driver's behaviour
at the algorithms it runs. -/
theorem runLoop_congr (d1 d2 : TestSpec → Outcome CompressionResult)
    (h : ∀ t, d1 t = d2 t) :
    ∀ (ts : List TestSpec) (acc : List CompressionResult),
      runLoop d1 acc ts = runLoop d2 acc ts := by
  intro ts
  induction ts with
  | nil => intro acc; rfl
  | cons t ts ih =>
    intro acc
    simp only [runLoop, h t]
    cases d2 t with
    | ok r => exact ih (acc ++ [r])
    | err e => rfl
    | panicked m => rfl

/-- C9: the document composition is fixed — the text blob is the 53-byte
sentence repeated 50000 times, there are exactly 5000 items and exactly
300000 binary bytes — and the benchmark passes the one generated document
value unchanged to every per-algorithm run: the orchestrator's outcome
depends on the driver's behaviour only at that single document. -/
theorem c9_document_fixed_and_shared (oid : Nat) (now : Int) :
    (generateLargeDocument oid now).repetitiveText.length = 50000 * 53 ∧
    (generateLargeDocument oid now).productItems.length = 5000 ∧
    (generateLargeDocument oid now).binaryData.length = 300000 ∧
    ∀ d1 d2 : TestSpec → TestDocument → Outcome CompressionResult,
      (∀ t, d1 t (generateLargeDocument oid now) =
        d2 t (generateLargeDocument oid now)) →
      runAllWithDriver d1 (generateLargeDocument oid now) =
        runAllWithDriver d2 (generateLargeDocument oid now) := by
  refine ⟨?_, ?_, ?_, ?_⟩
  · show (goRepeat "This is highly compressible repetitive text pattern. "
      50000).length = 50000 * 53
    rw [goRepeat_length]
    rfl
  · simp [generateLargeDocument]
  · simp [generateLargeDocument]
  · intro d1 d2 h
    rw [runAllWithDriver, runAllWithDriver]
    exact runLoop_congr _ _ h tests []

/-! ## C10 -/

/-- C10: the binary block is exactly 300000 bytes, the byte at every
index `i` is `i % 256`, and the block is identical across invocations of
the generator (it does not depend on the ObjectID or timestamp). -/
theorem c10_binary_pattern (oid oidB : Nat) (now nowB : Int) (i : Nat)
    (h : i < 300000) :
    (generateLargeDocument oid now).binaryData.length = 300000 ∧
    (generateLargeDocument oid now).binaryData[i]? = some (i % 256) ∧
    (generateLargeDocument oid now).binaryData =
      (generateLargeDocument oidB nowB).binaryData := by
  refine ⟨by simp [generateLargeDocument], ?_, rfl⟩
  simp [generateLargeDocument, List.getElem?_map, List.getElem?_range, h]

/-- Witness for C10 at index 7 of the concrete document. -/
theorem c10_binary_pattern_witness :
    (generateLargeDocument 0 0).binaryData.length = 300000 ∧
    (generateLargeDocument 0 0).binaryData[7]? = some (7 % 256) ∧
    (generateLargeDocument 0 0).binaryData =
      (generateLargeDocument 1 1).binaryData :=
  c10_binary_pattern 0 1 0 1 7 (by norm_num)
